import Mathlib

set_option maxHeartbeats 1000000

/-!
Shallow embedding of the PV-registry creation pipeline of
`src/pipeline_components/registry_creator.py` (class `RegistryCreator`),
together with proofs about its geometric-matching and correction steps.

Areas, percentages and planar coordinates are modelled as rationals;
the trigonometric part of the tilt correction is stated over the reals.
Dataframe rows are modelled either as fixed record types (when the code
treats a row through a fixed schema) or as association lists from column
name to cell value (when the claim is about which columns a row carries).
-/

/-- A 2D point, as used for the polygon centroids that drive the
nearest-neighbour matching. -/
abbrev GeoPoint := ℚ × ℚ

/-- A polygon, kept abstract as its vertex list; the pipeline never inspects
vertices, it only moves polygons between columns. -/
abbrev GeoPolygon := List (ℚ × ℚ)

/-- A value stored in one dataframe cell. -/
inductive ColVal where
  | num (x : ℚ)
  | str (s : String)
  | boolean (b : Bool)
  | point (p : GeoPoint)
  | poly (p : GeoPolygon)
deriving DecidableEq, BEq, Repr

/-- A dataframe row: an association list from column name to cell value. -/
abbrev DfRow := List (String × ColVal)

/-- Column lookup (`df[c]` for a single row). -/
def getCol (row : DfRow) (c : String) : Option ColVal :=
  (row.find? fun p => p.1 == c).map Prod.snd

/-- Column assignment (`df[c] = v`): overwrite the column when present,
append it otherwise. -/
def setCol (row : DfRow) (c : String) (v : ColVal) : DfRow :=
  if row.any fun p => p.1 == c then
    row.map fun p => if p.1 == c then (p.1, v) else p
  else row ++ [(c, v)]

/-- Column selection `df[[c1, ..., cn]]`, in the given column order. -/
def selectCols (cols : List String) (row : DfRow) : DfRow :=
  cols.filterMap fun c => (getCol row c).map fun v => (c, v)

/-- Column rename (`df.rename(columns={c: c2})`). -/
def renameCol (c c2 : String) (row : DfRow) : DfRow :=
  row.map fun p => if p.1 == c then (c2, p.2) else p

/-- Read a numeric column, defaulting to 0; only ever applied to columns that
hold numbers. -/
def getNum (row : DfRow) (c : String) : ℚ :=
  match getCol row c with
  | some (ColVal.num x) => x
  | _ => 0

/-- Read the x coordinate of a point column, defaulting to 0. -/
def getPointX (row : DfRow) (c : String) : ℚ :=
  match getCol row c with
  | some (ColVal.point p) => p.1
  | _ => 0

/-- Read the y coordinate of a point column, defaulting to 0. -/
def getPointY (row : DfRow) (c : String) : ℚ :=
  match getCol row c with
  | some (ColVal.point p) => p.2
  | _ => 0

/-- A row of `raw_overhanging_PV_installations` right before the
nearest-neighbour enrichment: its own identifier has already been renamed to
`identifier_diff` (line 334), `geometry` holds the centroid and
`geometry_overhanging_polygon` the saved polygon. -/
structure OverhangRow where
  area_diff : ℚ
  identifier_diff : String
  geometry : GeoPoint
  geometry_overhanging_polygon : GeoPolygon
deriving DecidableEq, Repr

/-- The dataframe view of an `OverhangRow`. -/
def OverhangRow.toDfRow (o : OverhangRow) : DfRow :=
  [("area_diff", ColVal.num o.area_diff),
   ("identifier_diff", ColVal.str o.identifier_diff),
   ("geometry", ColVal.point o.geometry),
   ("geometry_overhanging_polygon", ColVal.poly o.geometry_overhanging_polygon)]

/-- A row of `raw_PV_installations_on_rooftop` at the time `_ckdnearest` runs:
rooftop attributes from the overlay, `geometry` temporarily swapped to the
centroid (lines 339-347), the polygon saved in
`geometry_intersected_polygon` and the centroid also in `centroid_intersect`. -/
structure OnRooftopRow where
  raw_area : ℚ
  identifier : String
  Area : ℚ
  Azimuth : ℚ
  Building_I : String
  City : String
  PostalCode : String
  RoofTopID : String
  RooftopTyp : String
  Street : String
  StreetNumb : String
  Tilt : ℚ
  area_inter : ℚ
  geometry : GeoPoint
  geometry_intersected_polygon : GeoPolygon
  centroid_intersect : GeoPoint
deriving DecidableEq, Repr

/-- The dataframe view of an `OnRooftopRow`. -/
def OnRooftopRow.toDfRow (m : OnRooftopRow) : DfRow :=
  [("raw_area", ColVal.num m.raw_area),
   ("identifier", ColVal.str m.identifier),
   ("Area", ColVal.num m.Area),
   ("Azimuth", ColVal.num m.Azimuth),
   ("Building_I", ColVal.str m.Building_I),
   ("City", ColVal.str m.City),
   ("PostalCode", ColVal.str m.PostalCode),
   ("RoofTopID", ColVal.str m.RoofTopID),
   ("RooftopTyp", ColVal.str m.RooftopTyp),
   ("Street", ColVal.str m.Street),
   ("StreetNumb", ColVal.str m.StreetNumb),
   ("Tilt", ColVal.num m.Tilt),
   ("area_inter", ColVal.num m.area_inter),
   ("geometry", ColVal.point m.geometry),
   ("geometry_intersected_polygon", ColVal.poly m.geometry_intersected_polygon),
   ("centroid_intersect", ColVal.point m.centroid_intersect)]

/-- One matched pair of `_ckdnearest`: the overhang row concatenated with all
columns of its nearest on-rooftop row except `geometry`, plus the planar
match distance in degrees (lines 126-167). -/
def ckdnearest_row (o : OverhangRow) (m : OnRooftopRow)
    (dist_in_degrees : ℚ) : DfRow :=
  o.toDfRow ++ (m.toDfRow.filter fun p => p.1 != "geometry")
    ++ [("dist_in_degrees", ColVal.num dist_in_degrees)]

/-- The enrichment of one matched overhang/on-rooftop pair before the final
column selection (lines 252-298): helper coordinates of the matched centroid,
the identifier-consistency boolean `checker`, the geodesic centroid distance
`dist_in_meters` (computed externally by geopy, passed as a parameter here),
and `area_inter` overwritten with the overhang area `area_diff`. -/
def enrich_pre (o : OverhangRow) (m : OnRooftopRow)
    (dist_in_degrees dist_in_meters : ℚ) : DfRow :=
  let r1 := ckdnearest_row o m dist_in_degrees
  let r2 := setCol r1 "helper_x" (ColVal.num (getPointX r1 "centroid_intersect"))
  let r3 := setCol r2 "helper_y" (ColVal.num (getPointY r2 "centroid_intersect"))
  let r4 := setCol r3 "checker"
    (ColVal.boolean (getCol r3 "identifier_diff" == getCol r3 "identifier"))
  let r5 := setCol r4 "dist_in_meters" (ColVal.num dist_in_meters)
  setCol r5 "area_inter" (ColVal.num (getNum r5 "area_diff"))

/-- The column list the enrichment step projects its result onto
(lines 300-319). -/
def enrichSelectedCols : List String :=
  ["raw_area", "identifier", "Area", "Azimuth", "Building_I", "City",
   "PostalCode", "RoofTopID", "RooftopTyp", "Street", "StreetNumb", "Tilt",
   "area_inter", "geometry_overhanging_polygon"]

/-- `RegistryCreator.enrich_raw_overhanging_pv_installations_with_closest_rooftop_attributes`
restricted to one matched pair: the enriched row projected onto the output
schema, with `geometry_overhanging_polygon` renamed back to `geometry`
(lines 250-325). -/
def enrich_raw_overhanging_pv_installations_with_closest_rooftop_attributes
    (o : OverhangRow) (m : OnRooftopRow)
    (dist_in_degrees dist_in_meters : ℚ) : DfRow :=
  renameCol "geometry_overhanging_polygon" "geometry"
    (selectCols enrichSelectedCols (enrich_pre o m dist_in_degrees dist_in_meters))

/-- A row of `raw_PV_installations_off_rooftop`: the off-rooftop remainder of
one installation after the difference overlay (lines 118-124). -/
structure OffRooftopRow where
  raw_area : ℚ
  area_diff : ℚ
  identifier : Option String
  geometry : GeoPolygon
deriving DecidableEq, Repr

/-- The column selection `[["area_diff", "identifier", "geometry"]]` applied
inside `identify_raw_overhanging_PV_installations` (lines 213-215). -/
structure OverhangSelRow where
  area_diff : ℚ
  identifier : Option String
  geometry : GeoPolygon
deriving DecidableEq, Repr

/-- A row of `raw_overhanging_PV_installations` after
`identify_raw_overhanging_PV_installations`: centroid in `geometry`, original
polygon saved in `geometry_overhanging_polygon` (lines 222-230). -/
structure RawOverhangRow where
  area_diff : ℚ
  identifier : Option String
  geometry : GeoPoint
  geometry_overhanging_polygon : GeoPolygon
deriving DecidableEq, Repr

/-- `RegistryCreator.identify_raw_overhanging_PV_installations`
(lines 197-230): keep remainders with `checker = raw_area - area_diff > 0`,
select the three working columns, drop null identifiers, save the polygon and
replace the geometry by its centroid.  The centroid computation is a shapely
library call, passed in as a function parameter. -/
def identify_raw_overhanging_PV_installations
    (centroid : GeoPolygon → GeoPoint) (rows : List OffRooftopRow) :
    List RawOverhangRow :=
  ((((rows.filter fun r => decide (0 < r.raw_area - r.area_diff)).map
      fun r => OverhangSelRow.mk r.area_diff r.identifier r.geometry).filter
      fun r => !r.identifier.isNone).map
      fun r => RawOverhangRow.mk r.area_diff r.identifier (centroid r.geometry)
        r.geometry)

/-- Pandas `Series.isin` on a possibly-null identifier: a null never matches. -/
def identifierMatchesRooftop (rooftop_pv_ids : List String) :
    Option String → Bool
  | some i => rooftop_pv_ids.contains i
  | none => false

/-- `RegistryCreator.filter_raw_overhanging_PV_installations`
(lines 232-248): keep overhangs whose identifier occurs among the intersected
installations, then keep only those with `area_diff > 1.0`. -/
def filter_raw_overhanging_PV_installations (rooftop_pv_ids : List String)
    (rows : List RawOverhangRow) : List RawOverhangRow :=
  (rows.filter fun r => identifierMatchesRooftop rooftop_pv_ids r.identifier).filter
    fun r => decide (1 < r.area_diff)

/-- A row of `raw_PV_installations_on_rooftop` as seen by
`remove_erroneous_pv_polygons`; only the columns that step reads or writes. -/
structure PVRow where
  identifier : String
  raw_area : ℚ
  area_inter : ℚ
  percentage_intersect : ℚ
deriving DecidableEq, Repr

/-- The first line of `remove_erroneous_pv_polygons`:
`percentage_intersect = area_inter / raw_area` (lines 390-393). -/
def recompute_percentage (r : PVRow) : PVRow :=
  { r with percentage_intersect := r.area_inter / r.raw_area }

/-- The groupby-sum of `percentage_intersect` over the rows of one
identifier (lines 396-408). -/
def sumPercentage (rows : List PVRow) (id : String) : ℚ :=
  ((rows.filter fun r => r.identifier == id).map PVRow.percentage_intersect).sum

/-- An identifier is flagged as erroneous when its summed percentage exceeds
1.1 (lines 411-413, the list `polygone`). -/
def isFlagged (rows : List PVRow) (id : String) : Bool :=
  decide ((1.1 : ℚ) < sumPercentage rows id)

/-- The first drop (lines 416-423): remove rows whose identifier is flagged
and whose `percentage_intersect` is below 1. -/
def dropFlaggedBelowOne (flag : String → Bool) (rows : List PVRow) :
    List PVRow :=
  rows.filter fun r => !(flag r.identifier && decide (r.percentage_intersect < 1))

/-- The second drop (lines 426-433): remove rows whose identifier is flagged
and marked by pandas `duplicated`, i.e. whose identifier already occurred
earlier in the frame; `seen` accumulates the identifiers already scanned. -/
def dropFlaggedDuplicates (flag : String → Bool) (seen : List String) :
    List PVRow → List PVRow
  | [] => []
  | r :: rest =>
    if flag r.identifier && seen.contains r.identifier then
      dropFlaggedDuplicates flag (r.identifier :: seen) rest
    else
      r :: dropFlaggedDuplicates flag (r.identifier :: seen) rest

/-- `RegistryCreator.remove_erroneous_pv_polygons` (lines 387-433): compute
the percentages, flag identifiers whose summed percentage exceeds 1.1, drop
their partial rows below 1, then drop their remaining duplicates. -/
def remove_erroneous_pv_polygons (rows : List PVRow) : List PVRow :=
  dropFlaggedDuplicates (isFlagged (rows.map recompute_percentage)) []
    (dropFlaggedBelowOne (isFlagged (rows.map recompute_percentage))
      (rows.map recompute_percentage))

/-- The two sequential masked assignments of `correct_area_by_tilt`
(lines 443-448): tilts of at least 50 become 30, then tilts equal to 0
become 30. -/
def clampTilt {α : Type*} [LinearOrderedField α] (t : α) : α :=
  let t1 := if 50 ≤ t then 30 else t
  if t1 = 0 then 30 else t1

/-- The columns of one row that `correct_area_by_tilt` touches. -/
structure TiltRow (α : Type*) where
  Tilt : α
  area_inter : α
  area_tilted : α
deriving DecidableEq, Repr

/-- `RegistryCreator.correct_area_by_tilt` on one row (lines 435-460): clamp
the tilt, then set `area_tilted = (1 / cos(radians(Tilt))) * area_inter`.
The composition of `math.cos` and `math.radians` is passed in as the
function parameter `cosRadians`. -/
def correct_area_by_tilt {α : Type*} [LinearOrderedField α]
    (cosRadians : α → α) (r : TiltRow α) : TiltRow α :=
  { Tilt := clampTilt r.Tilt,
    area_inter := r.area_inter,
    area_tilted := 1 / cosRadians (clampTilt r.Tilt) * r.area_inter }

/-- A registry row (rooftop or address registry) after the dissolve, before
the capacity columns are added. -/
structure RegistryRow where
  area_inter : ℚ
  area_tilted : ℚ
deriving DecidableEq, Repr

/-- A registry row with the derived capacity columns. -/
structure RegistryRowWithCapacity where
  area_inter : ℚ
  area_tilted : ℚ
  capacity_not_tilted : ℚ
  capacity_tilted : ℚ
deriving DecidableEq, Repr

/-- The capacity derivation applied to one registry row (lines 581-595):
`capacity_not_tilted = area_inter / 6.5` and
`capacity_tilted = area_tilted / 6.5`. -/
def derive_capacities (r : RegistryRow) : RegistryRowWithCapacity :=
  { area_inter := r.area_inter,
    area_tilted := r.area_tilted,
    capacity_not_tilted := r.area_inter / 6.5,
    capacity_tilted := r.area_tilted / 6.5 }

/-- The rooftop registry after the capacity columns are added
(lines 581-587). -/
def rooftop_registry_with_capacities (rows : List RegistryRow) :
    List RegistryRowWithCapacity :=
  rows.map derive_capacities

/-- The address registry after the capacity columns are added
(lines 589-595). -/
def address_registry_with_capacities (rows : List RegistryRow) :
    List RegistryRowWithCapacity :=
  rows.map derive_capacities

/-- Single-row input on which the consistency filter keeps a row whose
percentage exceeds the 1.1 acceptance bound. -/
def c1Row : PVRow := PVRow.mk "polygon_0" 1 2 0

/-- Two partial rows of one identifier whose percentages sum to 1.2: the
filter flags the identifier and then removes both rows. -/
def c2Rows : List PVRow :=
  [PVRow.mk "polygon_0" 10 6 0, PVRow.mk "polygon_0" 10 6 0]

/-- A flagged identifier with one complete row (percentage 1) and one partial
row (percentage 0.5). -/
def c2wRows : List PVRow :=
  [PVRow.mk "polygon_0" 10 10 0, PVRow.mk "polygon_0" 10 5 0]

/-- Two rows of one identifier whose percentages sum to exactly 1: the
identifier is not flagged. -/
def c9Rows : List PVRow :=
  [PVRow.mk "polygon_0" 10 7 (7 / 10), PVRow.mk "polygon_0" 10 3 (3 / 10)]

/-- An overhang fragment of area 30 matched against an on-rooftop fragment. -/
def c4Overhang : OverhangRow := OverhangRow.mk 30 "polygon_1" (0, 0) [(0, 0)]

/-- An on-rooftop fragment with intersection area 70. -/
def c4Rooftop : OnRooftopRow :=
  OnRooftopRow.mk 100 "polygon_1" 50 180 "b1" "City" "12345" "r1" "flat"
    "Main" "5" 30 70 (1, 1) [(1, 1)] (1, 1)

theorem clampTilt_eq {α : Type*} [LinearOrderedField α] (t : α) :
    clampTilt t = if 50 ≤ t ∨ t = 0 then 30 else t := by
  unfold clampTilt
  by_cases h1 : 50 ≤ t
  · simp [h1]
  · by_cases h2 : t = 0 <;> simp [h1, h2]

theorem clampTilt_idem {α : Type*} [LinearOrderedField α] (t : α) :
    clampTilt (clampTilt t) = clampTilt t := by
  rw [clampTilt_eq t]
  by_cases h : 50 ≤ t ∨ t = 0
  · rw [if_pos h, clampTilt_eq]
    norm_num
  · rw [if_neg h, clampTilt_eq, if_neg h]

theorem clampTilt_mem {α : Type*} [LinearOrderedField α] (t : α)
    (ht : 0 ≤ t) : 0 < clampTilt t ∧ clampTilt t < 50 := by
  rw [clampTilt_eq]
  split_ifs with h
  · norm_num
  · push_neg at h
    exact ⟨lt_of_le_of_ne ht (Ne.symm h.2), h.1⟩

/-- Claim C6: the tilt corrector maps a row's Tilt to 30 exactly when the
incoming Tilt is at least 50 or equal to 0 and leaves every other Tilt
unchanged (0 and 85 become 30, 29 stays 29), and then sets
`area_tilted = area_inter / cos(Tilt in radians)` on the clamped Tilt. -/
theorem correct_area_by_tilt_spec (r : TiltRow ℝ) :
    (correct_area_by_tilt (fun t => Real.cos (t * Real.pi / 180)) r).Tilt
      = (if 50 ≤ r.Tilt ∨ r.Tilt = 0 then 30 else r.Tilt)
    ∧ (correct_area_by_tilt (fun t => Real.cos (t * Real.pi / 180)) r).area_tilted
      = r.area_inter / Real.cos (clampTilt r.Tilt * Real.pi / 180)
    ∧ clampTilt (0 : ℝ) = 30 ∧ clampTilt (85 : ℝ) = 30
    ∧ clampTilt (29 : ℝ) = 29 := by
  refine ⟨?_, ?_, ?_, ?_, ?_⟩
  · simp only [correct_area_by_tilt]
    exact clampTilt_eq r.Tilt
  · simp only [correct_area_by_tilt]
    rw [one_div_mul_eq_div]
  · rw [clampTilt_eq]; norm_num
  · rw [clampTilt_eq]; norm_num
  · rw [clampTilt_eq]; norm_num

/-- Claim C7: the tilt corrector is idempotent: a second application of the
clamp-then-correct transform changes no Tilt and reproduces the same
`area_tilted` (and `area_inter`) values, for any cosine function, in
particular the real one. -/
theorem correct_area_by_tilt_idempotent (c : ℝ → ℝ) (r : TiltRow ℝ) :
    correct_area_by_tilt c (correct_area_by_tilt c r)
      = correct_area_by_tilt c r := by
  simp only [correct_area_by_tilt, clampTilt_idem]

/-- Claim C10: for every row with Tilt at least 0, the clamped Tilt lies
strictly between 0 and 50 degrees, the cosine of the clamped Tilt in radians
is strictly positive (so the division never divides by zero), and the tilt
correction can only inflate a nonnegative intersection area. -/
theorem tilt_correction_safe (r : TiltRow ℝ) (ht : 0 ≤ r.Tilt) :
    (0 < clampTilt r.Tilt ∧ clampTilt r.Tilt < 50)
    ∧ 0 < Real.cos (clampTilt r.Tilt * Real.pi / 180)
    ∧ Real.cos (clampTilt r.Tilt * Real.pi / 180) ≠ 0
    ∧ (0 ≤ r.area_inter →
        r.area_inter ≤ (correct_area_by_tilt
          (fun t => Real.cos (t * Real.pi / 180)) r).area_tilted) := by
  obtain ⟨h0, h50⟩ := clampTilt_mem r.Tilt ht
  have hpi := Real.pi_pos
  have hmul : clampTilt r.Tilt * Real.pi < 50 * Real.pi :=
    mul_lt_mul_of_pos_right h50 hpi
  have hmul0 : 0 < clampTilt r.Tilt * Real.pi := mul_pos h0 hpi
  have hlt : clampTilt r.Tilt * Real.pi / 180 < Real.pi / 2 := by linarith
  have hgt : -(Real.pi / 2) < clampTilt r.Tilt * Real.pi / 180 := by linarith
  have hcos : 0 < Real.cos (clampTilt r.Tilt * Real.pi / 180) :=
    Real.cos_pos_of_mem_Ioo ⟨hgt, hlt⟩
  refine ⟨⟨h0, h50⟩, hcos, ne_of_gt hcos, ?_⟩
  intro ha
  simp only [correct_area_by_tilt, one_div_mul_eq_div]
  rw [le_div_iff₀ hcos]
  have := mul_le_mul_of_nonneg_left
    (Real.cos_le_one (clampTilt r.Tilt * Real.pi / 180)) ha
  simpa [mul_one] using this

/-- Witness for C10 at Tilt 85 and intersection area 2. -/
theorem tilt_correction_safe_witness :
    (0 < clampTilt (85 : ℝ) ∧ clampTilt (85 : ℝ) < 50)
    ∧ 0 < Real.cos (clampTilt (85 : ℝ) * Real.pi / 180)
    ∧ Real.cos (clampTilt (85 : ℝ) * Real.pi / 180) ≠ 0
    ∧ (2 : ℝ) ≤ (correct_area_by_tilt
        (fun t => Real.cos (t * Real.pi / 180)) (TiltRow.mk 85 2 0)).area_tilted := by
  obtain ⟨h1, h2, h3, h4⟩ :=
    tilt_correction_safe (TiltRow.mk (85 : ℝ) 2 0) (by norm_num)
  exact ⟨h1, h2, h3, h4 (by norm_num)⟩

/-- Claim C8: in both the rooftop and the address registry, every row
satisfies `capacity_not_tilted = area_inter / 6.5` and
`capacity_tilted = area_tilted / 6.5`; a row with `area_inter = 65` and
`area_tilted = 130` gets capacities 10 and 20. -/
theorem capacity_derivation_spec :
    (∀ rows : List RegistryRow, ∀ r ∈ rooftop_registry_with_capacities rows,
      r.capacity_not_tilted = r.area_inter / 6.5
      ∧ r.capacity_tilted = r.area_tilted / 6.5)
    ∧ (∀ rows : List RegistryRow, ∀ r ∈ address_registry_with_capacities rows,
      r.capacity_not_tilted = r.area_inter / 6.5
      ∧ r.capacity_tilted = r.area_tilted / 6.5)
    ∧ (derive_capacities (RegistryRow.mk 65 130)).capacity_not_tilted = 10
    ∧ (derive_capacities (RegistryRow.mk 65 130)).capacity_tilted = 20 := by
  refine ⟨?_, ?_, by norm_num [derive_capacities], by norm_num [derive_capacities]⟩
  all_goals
    intro rows r hr
    simp only [rooftop_registry_with_capacities,
      address_registry_with_capacities, List.mem_map] at hr
    obtain ⟨a, _, rfl⟩ := hr
    exact ⟨rfl, rfl⟩

/-- Witness for C8: the capacity equations evaluated on the registry built
from the single row with areas 65 and 130. -/
theorem capacity_derivation_spec_witness :
    (RegistryRowWithCapacity.mk 65 130 10 20).capacity_not_tilted
      = (RegistryRowWithCapacity.mk 65 130 10 20).area_inter / 6.5
    ∧ (RegistryRowWithCapacity.mk 65 130 10 20).capacity_tilted
      = (RegistryRowWithCapacity.mk 65 130 10 20).area_tilted / 6.5 :=
  capacity_derivation_spec.1 [RegistryRow.mk 65 130]
    (RegistryRowWithCapacity.mk 65 130 10 20)
    (by norm_num [rooftop_registry_with_capacities, derive_capacities])

theorem getCol_cons (p : String × ColVal) (l : DfRow) (c : String) :
    getCol (p :: l) c = if p.1 == c then some p.2 else getCol l c := by
  cases h : p.1 == c <;> simp [getCol, List.find?, h]

theorem getCol_map_overwrite (c : String) (v : ColVal) :
    ∀ row : DfRow, (row.any fun p => p.1 == c) = true →
      getCol (row.map fun p => if p.1 == c then (p.1, v) else p) c = some v := by
  intro row
  induction row with
  | nil => intro h; simp at h
  | cons p l ih =>
    intro h
    by_cases hp : (p.1 == c) = true
    · have hpc : p.1 = c := eq_of_beq hp
      simp [getCol_cons, hpc]
    · have hp' : (p.1 == c) = false := Bool.eq_false_iff.mpr hp
      simp only [List.map_cons, hp', Bool.false_eq_true, if_false, getCol_cons]
      apply ih
      simpa [List.any_cons, hp'] using h

theorem getCol_append_overwrite (c : String) (v : ColVal) :
    ∀ row : DfRow, (row.any fun p => p.1 == c) = false →
      getCol (row ++ [(c, v)]) c = some v := by
  intro row
  induction row with
  | nil => intro _; simp [getCol_cons]
  | cons p l ih =>
    intro h
    rw [List.any_cons, Bool.or_eq_false_iff] at h
    rw [List.cons_append, getCol_cons, h.1]
    simpa using ih h.2

theorem getCol_setCol_same (row : DfRow) (c : String) (v : ColVal) :
    getCol (setCol row c v) c = some v := by
  unfold setCol
  by_cases h : (row.any fun p => p.1 == c) = true
  · rw [if_pos h]
    exact getCol_map_overwrite c v row h
  · rw [if_neg h]
    exact getCol_append_overwrite c v row (Bool.eq_false_iff.mpr h)

theorem getCol_map_keep (c c2 : String) (v : ColVal) (hne : c2 ≠ c) :
    ∀ row : DfRow,
      getCol (row.map fun p => if p.1 == c then (p.1, v) else p) c2
        = getCol row c2 := by
  intro row
  induction row with
  | nil => rfl
  | cons p l ih =>
    by_cases hp : (p.1 == c) = true
    · have hpc : p.1 = c := eq_of_beq hp
      have hnot : (p.1 == c2) = false := by
        rw [hpc]
        exact beq_eq_false_iff_ne.mpr (Ne.symm hne)
      simp only [List.map_cons, hp, if_true, getCol_cons, hnot,
        Bool.false_eq_true, if_false]
      exact ih
    · have hp' : (p.1 == c) = false := Bool.eq_false_iff.mpr hp
      simp only [List.map_cons, hp', Bool.false_eq_true, if_false, getCol_cons]
      by_cases hq : (p.1 == c2) = true
      · simp [hq]
      · have hq' : (p.1 == c2) = false := Bool.eq_false_iff.mpr hq
        simp only [hq', Bool.false_eq_true, if_false]
        exact ih

theorem getCol_append_keep (c c2 : String) (v : ColVal) (hne : c2 ≠ c) :
    ∀ row : DfRow, getCol (row ++ [(c, v)]) c2 = getCol row c2 := by
  intro row
  induction row with
  | nil =>
    simp [getCol_cons, beq_eq_false_iff_ne.mpr (Ne.symm hne), getCol]
  | cons p l ih =>
    rw [List.cons_append, getCol_cons, getCol_cons]
    by_cases hq : (p.1 == c2) = true
    · simp [hq]
    · have hq' : (p.1 == c2) = false := Bool.eq_false_iff.mpr hq
      simp only [hq', Bool.false_eq_true, if_false]
      exact ih

theorem getCol_setCol_ne (row : DfRow) {c c2 : String} (v : ColVal)
    (hne : c2 ≠ c) : getCol (setCol row c v) c2 = getCol row c2 := by
  unfold setCol
  by_cases h : (row.any fun p => p.1 == c) = true
  · rw [if_pos h]
    exact getCol_map_keep c c2 v hne row
  · rw [if_neg h]
    exact getCol_append_keep c c2 v hne row

theorem getCol_selectCols (row : DfRow) (c : String) :
    ∀ cols : List String,
      getCol (selectCols cols row) c = if c ∈ cols then getCol row c else none := by
  intro cols
  induction cols with
  | nil => simp [selectCols, getCol]
  | cons c0 cols ih =>
    simp only [selectCols, List.filterMap_cons]
    cases h0 : getCol row c0 with
    | none =>
      simp only [Option.map_none']
      rw [show (List.filterMap (fun c => (getCol row c).map fun v => (c, v)) cols)
            = selectCols cols row from rfl, ih]
      by_cases hc : c = c0
      · subst hc
        simp [h0]
      · simp [List.mem_cons, hc]
    | some v =>
      simp only [Option.map_some']
      rw [getCol_cons]
      by_cases hc : c = c0
      · subst hc
        simp [h0]
      · have : (c0 == c) = false := beq_eq_false_iff_ne.mpr (Ne.symm hc)
        rw [this]
        simp only [Bool.false_eq_true, if_false]
        rw [show (List.filterMap (fun c => (getCol row c).map fun v => (c, v)) cols)
              = selectCols cols row from rfl, ih]
        simp [List.mem_cons, hc]

theorem getCol_renameCol_ne {c c2 c3 : String} (h1 : c3 ≠ c) (h2 : c3 ≠ c2) :
    ∀ row : DfRow, getCol (renameCol c c2 row) c3 = getCol row c3 := by
  intro row
  induction row with
  | nil => rfl
  | cons p l ih =>
    simp only [renameCol, List.map_cons] at *
    by_cases hp : (p.1 == c) = true
    · have hpc : p.1 = c := eq_of_beq hp
      rw [if_pos hp, getCol_cons, getCol_cons]
      have e1 : (c2 == c3) = false := beq_eq_false_iff_ne.mpr (Ne.symm h2)
      have e2 : (p.1 == c3) = false := by
        rw [hpc]
        exact beq_eq_false_iff_ne.mpr (Ne.symm h1)
      simp only [e1, e2, Bool.false_eq_true, if_false]
      exact ih
    · have hp' : (p.1 == c) = false := Bool.eq_false_iff.mpr hp
      rw [if_neg hp, getCol_cons, getCol_cons]
      by_cases hq : (p.1 == c3) = true
      · simp [hq]
      · have hq' : (p.1 == c3) = false := Bool.eq_false_iff.mpr hq
        simp only [hq', Bool.false_eq_true, if_false]
        exact ih


theorem ckdnearest_area_diff (o : OverhangRow) (m : OnRooftopRow) (d1 : ℚ) :
    getCol (ckdnearest_row o m d1) "area_diff" = some (ColVal.num o.area_diff) := by
  simp [ckdnearest_row, OverhangRow.toDfRow, OnRooftopRow.toDfRow,
    getCol_cons, getCol]

theorem ckdnearest_identifier_diff (o : OverhangRow) (m : OnRooftopRow) (d1 : ℚ) :
    getCol (ckdnearest_row o m d1) "identifier_diff"
      = some (ColVal.str o.identifier_diff) := by
  simp [ckdnearest_row, OverhangRow.toDfRow, OnRooftopRow.toDfRow,
    getCol_cons, getCol]

theorem ckdnearest_identifier (o : OverhangRow) (m : OnRooftopRow) (d1 : ℚ) :
    getCol (ckdnearest_row o m d1) "identifier"
      = some (ColVal.str m.identifier) := by
  simp [ckdnearest_row, OverhangRow.toDfRow, OnRooftopRow.toDfRow,
    getCol_cons, getCol]

theorem getCol_enrich_pre_area_inter (o : OverhangRow) (m : OnRooftopRow)
    (d1 d2 : ℚ) :
    getCol (enrich_pre o m d1 d2) "area_inter"
      = some (ColVal.num o.area_diff) := by
  simp only [enrich_pre, getNum, getCol_setCol_same, getCol_setCol_ne,
    ckdnearest_area_diff, ne_eq, not_false_eq_true, String.reduceEq]

theorem getCol_enrich_pre_dist_in_meters (o : OverhangRow) (m : OnRooftopRow)
    (d1 d2 : ℚ) :
    getCol (enrich_pre o m d1 d2) "dist_in_meters"
      = some (ColVal.num d2) := by
  simp only [enrich_pre, getCol_setCol_same, getCol_setCol_ne,
    ne_eq, not_false_eq_true, String.reduceEq]

theorem getCol_enrich_pre_identifier_diff (o : OverhangRow) (m : OnRooftopRow)
    (d1 d2 : ℚ) :
    getCol (enrich_pre o m d1 d2) "identifier_diff"
      = some (ColVal.str o.identifier_diff) := by
  simp only [enrich_pre, getCol_setCol_same, getCol_setCol_ne,
    ckdnearest_identifier_diff, ne_eq, not_false_eq_true, String.reduceEq]

theorem getCol_enrich_pre_checker (o : OverhangRow) (m : OnRooftopRow)
    (d1 d2 : ℚ) :
    (getCol (enrich_pre o m d1 d2) "checker").isSome = true := by
  simp only [enrich_pre, getCol_setCol_same, getCol_setCol_ne,
    ne_eq, not_false_eq_true, String.reduceEq, Option.isSome_some]

theorem getCol_enrich_out_area_inter (o : OverhangRow) (m : OnRooftopRow)
    (d1 d2 : ℚ) :
    getCol (enrich_raw_overhanging_pv_installations_with_closest_rooftop_attributes
      o m d1 d2) "area_inter" = some (ColVal.num o.area_diff) := by
  unfold enrich_raw_overhanging_pv_installations_with_closest_rooftop_attributes
  rw [getCol_renameCol_ne (by simp) (by simp), getCol_selectCols]
  rw [if_pos (by simp [enrichSelectedCols])]
  exact getCol_enrich_pre_area_inter o m d1 d2

theorem getCol_enrich_out_identifier (o : OverhangRow) (m : OnRooftopRow)
    (d1 d2 : ℚ) :
    getCol (enrich_raw_overhanging_pv_installations_with_closest_rooftop_attributes
      o m d1 d2) "identifier" = some (ColVal.str m.identifier) := by
  unfold enrich_raw_overhanging_pv_installations_with_closest_rooftop_attributes
  rw [getCol_renameCol_ne (by simp) (by simp), getCol_selectCols]
  rw [if_pos (by simp [enrichSelectedCols])]
  simp only [enrich_pre, getCol_setCol_same, getCol_setCol_ne,
    ckdnearest_identifier, ne_eq, not_false_eq_true, String.reduceEq]

theorem getCol_enrich_out_dist_in_meters (o : OverhangRow) (m : OnRooftopRow)
    (d1 d2 : ℚ) :
    getCol (enrich_raw_overhanging_pv_installations_with_closest_rooftop_attributes
      o m d1 d2) "dist_in_meters" = none := by
  unfold enrich_raw_overhanging_pv_installations_with_closest_rooftop_attributes
  rw [getCol_renameCol_ne (by simp) (by simp), getCol_selectCols]
  rw [if_neg (by simp [enrichSelectedCols])]

theorem getCol_enrich_out_identifier_diff (o : OverhangRow) (m : OnRooftopRow)
    (d1 d2 : ℚ) :
    getCol (enrich_raw_overhanging_pv_installations_with_closest_rooftop_attributes
      o m d1 d2) "identifier_diff" = none := by
  unfold enrich_raw_overhanging_pv_installations_with_closest_rooftop_attributes
  rw [getCol_renameCol_ne (by simp) (by simp), getCol_selectCols]
  rw [if_neg (by simp [enrichSelectedCols])]

/-- Claim C3: for every matched overhang, the enrichment step overwrites the
resolved record's `area_inter` with the overhang's own `area_diff`, replacing
the matched on-rooftop fragment's intersection area; in particular a 70-area
on-rooftop piece matched with a 30-area overhang yields a resolved fragment
whose `area_inter` is 30, not 100. -/
theorem enrich_area_inter_eq_area_diff :
    (∀ (o : OverhangRow) (m : OnRooftopRow) (d1 d2 : ℚ),
      getCol (enrich_raw_overhanging_pv_installations_with_closest_rooftop_attributes
        o m d1 d2) "area_inter" = some (ColVal.num o.area_diff))
    ∧ getCol (enrich_raw_overhanging_pv_installations_with_closest_rooftop_attributes
        c4Overhang c4Rooftop 0 0) "area_inter" = some (ColVal.num 30) := by
  refine ⟨getCol_enrich_out_area_inter, ?_⟩
  rw [getCol_enrich_out_area_inter]
  rfl

/-- C4 counterexample: on a concrete matched pair, the record returned by the
enrichment step carries neither `identifier_diff` nor `dist_in_meters`: both
are dropped by the final column selection. -/
theorem enrich_output_drops_signals_counterexample :
    ¬ ((getCol (enrich_raw_overhanging_pv_installations_with_closest_rooftop_attributes
          c4Overhang c4Rooftop 0 7) "identifier_diff").isSome = true
      ∧ (getCol (enrich_raw_overhanging_pv_installations_with_closest_rooftop_attributes
          c4Overhang c4Rooftop 0 7) "dist_in_meters").isSome = true) := by
  rw [getCol_enrich_out_identifier_diff, getCol_enrich_out_dist_in_meters]
  simp

/-- Claim C4 as amended: the enrichment computes `dist_in_meters`, the
overhang's own `identifier_diff` and the consistency boolean `checker` on the
intermediate record, but the final column selection drops all of them: the
returned record carries the matched identifier while `dist_in_meters` and
`identifier_diff` are absent from it. -/
theorem enrich_signals_internal_only (o : OverhangRow) (m : OnRooftopRow)
    (d1 d2 : ℚ) :
    getCol (enrich_pre o m d1 d2) "dist_in_meters" = some (ColVal.num d2)
    ∧ getCol (enrich_pre o m d1 d2) "identifier_diff"
        = some (ColVal.str o.identifier_diff)
    ∧ (getCol (enrich_pre o m d1 d2) "checker").isSome = true
    ∧ getCol (enrich_raw_overhanging_pv_installations_with_closest_rooftop_attributes
        o m d1 d2) "identifier" = some (ColVal.str m.identifier)
    ∧ getCol (enrich_raw_overhanging_pv_installations_with_closest_rooftop_attributes
        o m d1 d2) "dist_in_meters" = none
    ∧ getCol (enrich_raw_overhanging_pv_installations_with_closest_rooftop_attributes
        o m d1 d2) "identifier_diff" = none :=
  ⟨getCol_enrich_pre_dist_in_meters o m d1 d2,
   getCol_enrich_pre_identifier_diff o m d1 d2,
   getCol_enrich_pre_checker o m d1 d2,
   getCol_enrich_out_identifier o m d1 d2,
   getCol_enrich_out_dist_in_meters o m d1 d2,
   getCol_enrich_out_identifier_diff o m d1 d2⟩

/-- Claim C5: an off-rooftop remainder is retained as an overhang if and only
if `raw_area - area_diff` is strictly positive, its identifier is not null,
its identifier appears among the on-rooftop identifiers, and its `area_diff`
exceeds 1 square meter; all other remainders are discarded.  Stated as an
equality between the retained list and the filter by that conjunction. -/
theorem overhang_retention_iff (centroid : GeoPolygon → GeoPoint)
    (rooftop_pv_ids : List String) (rows : List OffRooftopRow) :
    filter_raw_overhanging_PV_installations rooftop_pv_ids
        (identify_raw_overhanging_PV_installations centroid rows)
      = (rows.filter fun r =>
            decide (0 < r.raw_area - r.area_diff) && !r.identifier.isNone
            && identifierMatchesRooftop rooftop_pv_ids r.identifier
            && decide (1 < r.area_diff)).map
          (fun r => RawOverhangRow.mk r.area_diff r.identifier
            (centroid r.geometry) r.geometry) := by
  simp only [filter_raw_overhanging_PV_installations,
    identify_raw_overhanging_PV_installations, List.filter_map,
    List.filter_filter, List.map_map]
  congr 1
  apply List.filter_congr
  intro r _
  simp [Function.comp, Bool.and_assoc, Bool.and_comm, Bool.and_left_comm]

theorem mem_of_mem_dropFlaggedDuplicates (flag : String → Bool) {r : PVRow} :
    ∀ (rows : List PVRow) (seen : List String),
      r ∈ dropFlaggedDuplicates flag seen rows → r ∈ rows := by
  intro rows
  induction rows with
  | nil => intro seen h; simp [dropFlaggedDuplicates] at h
  | cons a rest ih =>
    intro seen h
    simp only [dropFlaggedDuplicates] at h
    split at h
    · exact List.mem_cons_of_mem _ (ih _ h)
    · rcases List.mem_cons.mp h with h1 | h2
      · exact h1 ▸ List.mem_cons_self _ _
      · exact List.mem_cons_of_mem _ (ih _ h2)

theorem dropDup_filter_of_seen (flag : String → Bool) (id : String)
    (hf : flag id = true) :
    ∀ (rows : List PVRow) (seen : List String), seen.contains id = true →
      (dropFlaggedDuplicates flag seen rows).filter
        (fun r => r.identifier == id) = [] := by
  intro rows
  induction rows with
  | nil => intro seen _; rfl
  | cons r rest ih =>
    intro seen hseen
    simp only [dropFlaggedDuplicates]
    split
    next hcond =>
      apply ih
      rw [List.contains_cons, hseen, Bool.or_true]
    next hcond =>
      have hrid : (r.identifier == id) = false := by
        apply beq_eq_false_iff_ne.mpr
        intro hr
        exact hcond (by rw [hr, hf, hseen, Bool.and_self])
      rw [List.filter_cons, hrid]
      simp only [Bool.false_eq_true, if_false]
      apply ih
      rw [List.contains_cons, hseen, Bool.or_true]

theorem dropDup_filter_length_le_one (flag : String → Bool) (id : String)
    (hf : flag id = true) :
    ∀ (rows : List PVRow) (seen : List String),
      ((dropFlaggedDuplicates flag seen rows).filter
        (fun r => r.identifier == id)).length ≤ 1 := by
  intro rows
  induction rows with
  | nil => intro seen; simp [dropFlaggedDuplicates]
  | cons r rest ih =>
    intro seen
    simp only [dropFlaggedDuplicates]
    split
    · exact ih _
    · rw [List.filter_cons]
      by_cases hr : (r.identifier == id) = true
      · rw [hr]
        simp only [if_true]
        have hidr : r.identifier = id := eq_of_beq hr
        have hseen : ((r.identifier :: seen).contains id) = true := by
          simp [List.contains_cons, hidr]
        rw [dropDup_filter_of_seen flag id hf rest _ hseen]
        simp
      · have hr' : (r.identifier == id) = false := Bool.eq_false_iff.mpr hr
        rw [hr']
        simp only [Bool.false_eq_true, if_false]
        exact ih _

theorem dropDup_filter_of_not_flagged (flag : String → Bool) (id : String)
    (hf : flag id = false) :
    ∀ (rows : List PVRow) (seen : List String),
      (dropFlaggedDuplicates flag seen rows).filter (fun r => r.identifier == id)
        = rows.filter (fun r => r.identifier == id) := by
  intro rows
  induction rows with
  | nil => intro seen; rfl
  | cons r rest ih =>
    intro seen
    simp only [dropFlaggedDuplicates]
    split
    next hcond =>
      have hrid : (r.identifier == id) = false := by
        apply beq_eq_false_iff_ne.mpr
        intro hr
        rw [hr, hf, Bool.false_and] at hcond
        exact Bool.false_ne_true hcond
      rw [List.filter_cons, hrid]
      simp only [Bool.false_eq_true, if_false]
      exact ih _
    next hcond =>
      rw [List.filter_cons, List.filter_cons]
      by_cases hr : (r.identifier == id) = true
      · rw [hr]
        simp only [if_true, ih _]
      · have hr' : (r.identifier == id) = false := Bool.eq_false_iff.mpr hr
        rw [hr']
        simp only [Bool.false_eq_true, if_false]
        exact ih _

theorem dropDup_filter_ne_nil (flag : String → Bool) (id : String)
    (hf : flag id = true) :
    ∀ (rows : List PVRow) (seen : List String), seen.contains id = false →
      rows.filter (fun r => r.identifier == id) ≠ [] →
      (dropFlaggedDuplicates flag seen rows).filter
        (fun r => r.identifier == id) ≠ [] := by
  intro rows
  induction rows with
  | nil => intro seen _ h; exact absurd rfl h
  | cons r rest ih =>
    intro seen hseen hne
    by_cases hr : (r.identifier == id) = true
    · have hidr : r.identifier = id := eq_of_beq hr
      have hcond : (flag r.identifier && seen.contains r.identifier) = false := by
        rw [hidr, hseen, Bool.and_false]
      simp only [dropFlaggedDuplicates]
      rw [if_neg (by rw [hcond]; exact Bool.false_ne_true)]
      rw [List.filter_cons, hr]
      simp
    · have hr' : (r.identifier == id) = false := Bool.eq_false_iff.mpr hr
      have hrest : rest.filter (fun x => x.identifier == id) ≠ [] := by
        rw [List.filter_cons, hr'] at hne
        simpa using hne
      have hseen2 : ((r.identifier :: seen).contains id) = false := by
        have hsym : (id == r.identifier) = false := by
          apply beq_eq_false_iff_ne.mpr
          intro h
          exact hr (beq_iff_eq.mpr h.symm)
        rw [List.contains_cons, hsym, hseen]
        rfl
      simp only [dropFlaggedDuplicates]
      split
      · exact ih _ hseen2 hrest
      · rw [List.filter_cons, hr']
        simp only [Bool.false_eq_true, if_false]
        exact ih _ hseen2 hrest

theorem dropBelowOne_filter_of_not_flagged (flag : String → Bool) (id : String)
    (hf : flag id = false) (rows : List PVRow) :
    (dropFlaggedBelowOne flag rows).filter (fun r => r.identifier == id)
      = rows.filter (fun r => r.identifier == id) := by
  unfold dropFlaggedBelowOne
  rw [List.filter_filter]
  apply List.filter_congr
  intro r _
  by_cases hr : (r.identifier == id) = true
  · have hidr : r.identifier = id := eq_of_beq hr
    rw [hr, hidr, hf]
    simp
  · have hr2 := Bool.eq_false_iff.mpr hr
    rw [hr2]
    simp

theorem map_recompute_of_consistent :
    ∀ rows : List PVRow,
      (∀ r ∈ rows, r.percentage_intersect = r.area_inter / r.raw_area) →
      rows.map recompute_percentage = rows := by
  intro rows
  induction rows with
  | nil => intro _; rfl
  | cons a l ih =>
    intro hp
    rw [List.map_cons]
    have ha := hp a (List.mem_cons_self _ _)
    have hrec : recompute_percentage a = a := by
      cases a with
      | mk i ra ai pi =>
        simp only [recompute_percentage] at *
        simp [ha]
    rw [hrec, ih (fun r hr => hp r (List.mem_cons_of_mem _ hr))]

/-- Claim C1 as amended: provided no single input row has
`area_inter / raw_area` above 1.1, every identifier that still has a row
after `remove_erroneous_pv_polygons` has its surviving
`percentage_intersect` sum bounded by 1.1.  (Without the row-wise bound the
claim fails, see the counterexample: a lone row with percentage 2 survives.) -/
theorem remove_erroneous_sum_le_of_rowwise_bound (rows : List PVRow)
    (hb : ∀ r ∈ rows, r.area_inter / r.raw_area ≤ (1.1 : ℚ)) (id : String)
    (hid : ∃ r ∈ remove_erroneous_pv_polygons rows, r.identifier = id) :
    sumPercentage (remove_erroneous_pv_polygons rows) id ≤ (1.1 : ℚ) := by
  have hre : remove_erroneous_pv_polygons rows
      = dropFlaggedDuplicates (isFlagged (rows.map recompute_percentage)) []
          (dropFlaggedBelowOne (isFlagged (rows.map recompute_percentage))
            (rows.map recompute_percentage)) := rfl
  by_cases hf : isFlagged (rows.map recompute_percentage) id = true
  · obtain ⟨r, hrmem, hrid⟩ := hid
    have hlen := dropDup_filter_length_le_one
      (isFlagged (rows.map recompute_percentage)) id hf
      (dropFlaggedBelowOne (isFlagged (rows.map recompute_percentage))
        (rows.map recompute_percentage)) []
    rw [← hre] at hlen
    have hrfilt : r ∈ (remove_erroneous_pv_polygons rows).filter
        (fun x => x.identifier == id) :=
      List.mem_filter.mpr ⟨hrmem, by rw [hrid]; exact beq_self_eq_true id⟩
    cases hfl : (remove_erroneous_pv_polygons rows).filter
        (fun x => x.identifier == id) with
    | nil =>
      rw [hfl] at hrfilt
      exact absurd hrfilt (List.not_mem_nil _)
    | cons r0 tail =>
      have htail : tail = [] := by
        rw [hfl] at hlen
        simp only [List.length_cons] at hlen
        have h0 : tail.length = 0 := by omega
        exact List.length_eq_zero.mp h0
      subst htail
      have hsum : sumPercentage (remove_erroneous_pv_polygons rows) id
          = r0.percentage_intersect := by
        unfold sumPercentage
        rw [hfl]
        simp
      rw [hsum]
      have hr0 : r0 ∈ (remove_erroneous_pv_polygons rows).filter
          (fun x => x.identifier == id) := by
        rw [hfl]
        exact List.mem_cons_self _ _
      have hr0mem := (List.mem_filter.mp hr0).1
      rw [hre] at hr0mem
      have hr0b := mem_of_mem_dropFlaggedDuplicates
        (isFlagged (rows.map recompute_percentage)) _ _ hr0mem
      have hr0m := (List.mem_filter.mp hr0b).1
      obtain ⟨r1, hr1mem, hr1eq⟩ := List.mem_map.mp hr0m
      have hble := hb r1 hr1mem
      rw [← hr1eq]
      simpa [recompute_percentage] using hble
  · have hf2 : isFlagged (rows.map recompute_percentage) id = false :=
      Bool.eq_false_iff.mpr hf
    have hfin : sumPercentage (rows.map recompute_percentage) id ≤ (1.1 : ℚ) :=
      not_lt.mp (of_decide_eq_false hf2)
    unfold sumPercentage at hfin ⊢
    rw [hre, dropDup_filter_of_not_flagged _ id hf2 _ [],
      dropBelowOne_filter_of_not_flagged _ id hf2]
    exact hfin

/-- Claim C2 as amended: for a flagged identifier at most one row remains
after the filter, and exactly one remains if and only if the identifier has
some row with `percentage_intersect` at least 1; when all its rows are
partial (percentage below 1) the identifier ends with zero rows, not one. -/
theorem remove_erroneous_flagged_at_most_one (rows : List PVRow) (id : String)
    (hf : isFlagged (rows.map recompute_percentage) id = true) :
    ((remove_erroneous_pv_polygons rows).filter
      (fun r => r.identifier == id)).length ≤ 1
    ∧ (((remove_erroneous_pv_polygons rows).filter
        (fun r => r.identifier == id)).length = 1
      ↔ ∃ r ∈ rows.map recompute_percentage,
          r.identifier = id ∧ 1 ≤ r.percentage_intersect) := by
  have hre : remove_erroneous_pv_polygons rows
      = dropFlaggedDuplicates (isFlagged (rows.map recompute_percentage)) []
          (dropFlaggedBelowOne (isFlagged (rows.map recompute_percentage))
            (rows.map recompute_percentage)) := rfl
  have hlen := dropDup_filter_length_le_one
    (isFlagged (rows.map recompute_percentage)) id hf
    (dropFlaggedBelowOne (isFlagged (rows.map recompute_percentage))
      (rows.map recompute_percentage)) []
  rw [← hre] at hlen
  refine ⟨hlen, ?_, ?_⟩
  · intro hone
    cases hfl : (remove_erroneous_pv_polygons rows).filter
        (fun r => r.identifier == id) with
    | nil =>
      rw [hfl] at hone
      simp at hone
    | cons r0 tail =>
      have hr0 : r0 ∈ (remove_erroneous_pv_polygons rows).filter
          (fun r => r.identifier == id) := by
        rw [hfl]
        exact List.mem_cons_self _ _
      have hmf := List.mem_filter.mp hr0
      have hr0id : r0.identifier = id := eq_of_beq hmf.2
      have hr0mem := hmf.1
      rw [hre] at hr0mem
      have hr0b := mem_of_mem_dropFlaggedDuplicates
        (isFlagged (rows.map recompute_percentage)) _ _ hr0mem
      have h2 := List.mem_filter.mp hr0b
      refine ⟨r0, h2.1, hr0id, ?_⟩
      have hkeep := h2.2
      rw [hr0id, hf, Bool.true_and, Bool.not_eq_true'] at hkeep
      exact not_lt.mp (of_decide_eq_false hkeep)
  · rintro ⟨r, hrmem, hrid, hrp⟩
    have hkeep : (!(isFlagged (rows.map recompute_percentage) r.identifier
        && decide (r.percentage_intersect < 1))) = true := by
      have hd : decide (r.percentage_intersect < 1) = false :=
        decide_eq_false (not_lt.mpr hrp)
      rw [hd, Bool.and_false, Bool.not_false]
    have hrb : r ∈ dropFlaggedBelowOne
        (isFlagged (rows.map recompute_percentage))
        (rows.map recompute_percentage) :=
      List.mem_filter.mpr ⟨hrmem, hkeep⟩
    have hne : (dropFlaggedBelowOne (isFlagged (rows.map recompute_percentage))
        (rows.map recompute_percentage)).filter
          (fun x => x.identifier == id) ≠ [] := by
      intro hnil
      have hrf : r ∈ (dropFlaggedBelowOne
          (isFlagged (rows.map recompute_percentage))
          (rows.map recompute_percentage)).filter
            (fun x => x.identifier == id) :=
        List.mem_filter.mpr ⟨hrb, by rw [hrid]; exact beq_self_eq_true id⟩
      rw [hnil] at hrf
      exact absurd hrf (List.not_mem_nil _)
    have hnonnil := dropDup_filter_ne_nil
      (isFlagged (rows.map recompute_percentage)) id hf
      (dropFlaggedBelowOne (isFlagged (rows.map recompute_percentage))
        (rows.map recompute_percentage)) [] rfl hne
    rw [← hre] at hnonnil
    have hpos := List.length_pos.mpr hnonnil
    omega

/-- Claim C9: the consistency filter removes no row of an un-flagged
identifier: with the percentage column in its computed state, the rows of an
identifier whose summed percentage does not exceed 1.1 survive the filter
unchanged, even when the identifier has several rows. -/
theorem remove_erroneous_preserves_unflagged (rows : List PVRow)
    (hp : ∀ r ∈ rows, r.percentage_intersect = r.area_inter / r.raw_area)
    (id : String)
    (hf : isFlagged (rows.map recompute_percentage) id = false) :
    (remove_erroneous_pv_polygons rows).filter (fun r => r.identifier == id)
      = rows.filter (fun r => r.identifier == id) := by
  have hmap := map_recompute_of_consistent rows hp
  have hre : remove_erroneous_pv_polygons rows
      = dropFlaggedDuplicates (isFlagged (rows.map recompute_percentage)) []
          (dropFlaggedBelowOne (isFlagged (rows.map recompute_percentage))
            (rows.map recompute_percentage)) := rfl
  rw [hre, dropDup_filter_of_not_flagged _ id hf _ [],
    dropBelowOne_filter_of_not_flagged _ id hf, hmap]

/-- C1 counterexample: on the single row with `raw_area` 1 and `area_inter`
2, the filter flags the identifier but keeps the row (its percentage 2 is
not below 1), so the surviving sum is 2, above the 1.1 acceptance bound. -/
theorem remove_erroneous_sum_counterexample :
    ¬ (∀ id : String,
        (∃ r ∈ remove_erroneous_pv_polygons [c1Row], r.identifier = id) →
        sumPercentage (remove_erroneous_pv_polygons [c1Row]) id ≤ (1.1 : ℚ)) := by
  have heval : remove_erroneous_pv_polygons [c1Row]
      = [PVRow.mk "polygon_0" 1 2 2] := by
    norm_num [remove_erroneous_pv_polygons, dropFlaggedDuplicates,
      dropFlaggedBelowOne, isFlagged, sumPercentage, recompute_percentage,
      List.filter, List.map, c1Row]
  intro h
  have h2 := h "polygon_0"
    ⟨PVRow.mk "polygon_0" 1 2 2, by rw [heval]; exact List.mem_cons_self _ _, rfl⟩
  rw [heval] at h2
  norm_num [sumPercentage, List.filter, List.map] at h2

/-- C2 counterexample: an identifier with two rows of percentage 0.6 is
flagged (sum 1.2), and both rows are dropped as partial: zero rows remain,
not exactly one. -/
theorem remove_erroneous_flagged_zero_rows_counterexample :
    isFlagged (c2Rows.map recompute_percentage) "polygon_0" = true
    ∧ remove_erroneous_pv_polygons c2Rows = []
    ∧ ((remove_erroneous_pv_polygons c2Rows).filter
        (fun r => r.identifier == "polygon_0")).length ≠ 1 := by
  have heval : remove_erroneous_pv_polygons c2Rows = [] := by
    norm_num [remove_erroneous_pv_polygons, dropFlaggedDuplicates,
      dropFlaggedBelowOne, isFlagged, sumPercentage, recompute_percentage,
      List.filter, List.map, c2Rows]
  refine ⟨?_, heval, ?_⟩
  · norm_num [isFlagged, sumPercentage, recompute_percentage, List.filter,
      List.map, c2Rows]
  · rw [heval]
    simp

/-- Witness for C1 on a flagged identifier with rows of percentage 1 and
0.5. -/
theorem remove_erroneous_sum_le_witness :
    sumPercentage (remove_erroneous_pv_polygons c2wRows) "polygon_0"
      ≤ (1.1 : ℚ) := by
  have heval : remove_erroneous_pv_polygons c2wRows
      = [PVRow.mk "polygon_0" 10 10 1] := by
    norm_num [remove_erroneous_pv_polygons, dropFlaggedDuplicates,
      dropFlaggedBelowOne, isFlagged, sumPercentage, recompute_percentage,
      List.filter, List.map, c2wRows]
  exact remove_erroneous_sum_le_of_rowwise_bound c2wRows
    (by
      intro r hr
      simp only [c2wRows, List.mem_cons, List.not_mem_nil, or_false] at hr
      rcases hr with rfl | rfl <;> norm_num)
    "polygon_0"
    ⟨PVRow.mk "polygon_0" 10 10 1,
     by rw [heval]; exact List.mem_cons_self _ _, rfl⟩

/-- Witness for C2 on a flagged identifier with rows of percentage 1 and
0.5. -/
theorem remove_erroneous_flagged_at_most_one_witness :
    ((remove_erroneous_pv_polygons c2wRows).filter
      (fun r => r.identifier == "polygon_0")).length ≤ 1
    ∧ (((remove_erroneous_pv_polygons c2wRows).filter
        (fun r => r.identifier == "polygon_0")).length = 1
      ↔ ∃ r ∈ c2wRows.map recompute_percentage,
          r.identifier = "polygon_0" ∧ 1 ≤ r.percentage_intersect) :=
  remove_erroneous_flagged_at_most_one c2wRows "polygon_0"
    (by norm_num [isFlagged, sumPercentage, recompute_percentage, List.filter,
      List.map, c2wRows])

/-- Witness for C9 on an un-flagged identifier with two rows summing to
percentage exactly 1. -/
theorem remove_erroneous_preserves_unflagged_witness :
    (remove_erroneous_pv_polygons c9Rows).filter
      (fun r => r.identifier == "polygon_0")
      = c9Rows.filter (fun r => r.identifier == "polygon_0") :=
  remove_erroneous_preserves_unflagged c9Rows
    (by
      intro r hr
      simp only [c9Rows, List.mem_cons, List.not_mem_nil, or_false] at hr
      rcases hr with rfl | rfl <;> norm_num)
    "polygon_0"
    (by norm_num [isFlagged, sumPercentage, recompute_percentage, List.filter,
      List.map, c9Rows])
